import Mathlib

/-!
Verification development for the core of the rust-jvm bytecode virtual machine.

The definitions below are shallow embeddings of functions from the Rust
source, with machine integers modelled as `Int`/`Nat` together with explicit
wrapping into the signed 32-bit or 64-bit range.  Each definition carries a
doc comment naming the source item it embeds.  Theorems about the claims of
the specification follow after all definitions.
-/

/-- The result of a Rust `as i32` cast: wrap an integer into the signed
32-bit range. -/
def toI32 (v : Int) : Int := (v + 2 ^ 31).emod (2 ^ 32) - 2 ^ 31

/-- The result of a Rust `as i64` cast: wrap an integer into the signed
64-bit range. -/
def toI64 (v : Int) : Int := (v + 2 ^ 63).emod (2 ^ 64) - 2 ^ 63

/-- The unsigned 32-bit view (bit pattern) of a signed 32-bit value. -/
def toU32 (v : Int) : Nat := (v.emod (2 ^ 32)).toNat

/-- The unsigned 64-bit view (bit pattern) of a signed 64-bit value. -/
def toU64 (v : Int) : Nat := (v.emod (2 ^ 64)).toNat

/-- Bitwise or of two i64 values, computed on the unsigned views of the two
bit patterns, as the Rust `|` operator on `i64`. -/
def i64_lor (a b : Int) : Int := toI64 (Int.ofNat (Nat.lor (toU64 a) (toU64 b)))

/-- Bitwise and of two i32 values, computed on the unsigned views of the two
bit patterns, as the Rust `&` operator on `i32`. -/
def i32_land (a b : Int) : Int := toI32 (Int.ofNat (Nat.land (toU32 a) (toU32 b)))

/-- `Variable::put_long` (runtime/interpreter/frame.rs): split an i64 value
into the (upper, lower) pair of i32 slots.  `lower` is `long as i32`, `upper`
is `(long >> 32) as i32`; the arithmetic shift right on i64 is floor
division by 2 ^ 32. -/
def put_long (long : Int) : Int × Int :=
  let lower := toI32 long
  let upper := toI32 (Int.fdiv long (2 ^ 32))
  (upper, lower)

/-- `Variable::get_long` (runtime/interpreter/frame.rs): sign-extend each
slot to i64 (`get_int() as i64`, the identity on the mathematical value),
shift the upper half left by 32 as an i64, and bitwise-or the two halves. -/
def get_long (pre suf : Int) : Int :=
  let upper := pre
  let lower := suf
  i64_lor (toI64 (upper * 2 ^ 32)) lower

/-- `ISHL` in `InterpreterEnv::execute` (runtime/interpreter.rs):
`v1 << (v2 & 0x1F)` on i32, a wrapping left shift. -/
def ISHL_exec (v1 v2 : Int) : Int := toI32 (v1 * 2 ^ (i32_land v2 31).toNat)

/-- `ISHR` in `InterpreterEnv::execute` (runtime/interpreter.rs):
`v1 >> (v2 & 0x1F)` on i32, an arithmetic (floor) right shift. -/
def ISHR_exec (v1 v2 : Int) : Int := Int.fdiv v1 (2 ^ (i32_land v2 31).toNat)

/-- `IUSHR` in `InterpreterEnv::execute` (runtime/interpreter.rs):
`((v1 as u32) >> (v2 & 0x1F)) as i32`, a logical right shift. -/
def IUSHR_exec (v1 v2 : Int) : Int :=
  toI32 (Int.ofNat (toU32 v1 / 2 ^ (i32_land v2 31).toNat))

/-- `LSHL` in `InterpreterEnv::execute` (runtime/interpreter.rs):
`v1 << (v2 & 0x1F)` on i64.  Note the source masks the count with `0x1F`,
the same 5-bit mask as the 32-bit shifts. -/
def LSHL_exec (v1 v2 : Int) : Int := toI64 (v1 * 2 ^ (i32_land v2 31).toNat)

/-- `LSHR` in `InterpreterEnv::execute` (runtime/interpreter.rs):
`v1 >> (v2 & 0x1F)` on i64, an arithmetic (floor) right shift with the
5-bit mask of the source. -/
def LSHR_exec (v1 v2 : Int) : Int := Int.fdiv v1 (2 ^ (i32_land v2 31).toNat)

/-- `LUSHR` in `InterpreterEnv::execute` (runtime/interpreter.rs):
`((v1 as u64) >> (v2 & 0x1F)) as i64`, a logical right shift with the
5-bit mask of the source. -/
def LUSHR_exec (v1 v2 : Int) : Int :=
  toI64 (Int.ofNat (toU64 v1 / 2 ^ (i32_land v2 31).toNat))

/-- Rust `i32::wrapping_div`: truncating division, wrapping on the single
overflowing case `i32::MIN / -1`. -/
def wrapping_div_i32 (b a : Int) : Int := toI32 (Int.tdiv b a)

/-- `IDIV` in `InterpreterEnv::execute` (runtime/interpreter.rs): pop the
divisor `a` and the dividend `b`; raise `ArithmeticException` when the
divisor is zero, otherwise push `b.wrapping_div(a)`. -/
def IDIV_exec (b a : Int) : Except String Int :=
  if a = 0 then Except.error "java/lang/ArithmeticException"
  else Except.ok (wrapping_div_i32 b a)

/-- Decidable equality for `Except`, so that results of fallible operations
can be compared by evaluation. -/
instance {ε α : Type} [DecidableEq ε] [DecidableEq α] : DecidableEq (Except ε α) :=
  fun a b =>
    match a, b with
    | Except.error e1, Except.error e2 =>
      if h : e1 = e2 then isTrue (by rw [h])
      else isFalse (fun hh => h (by injection hh))
    | Except.ok a1, Except.ok a2 =>
      if h : a1 = a2 then isTrue (by rw [h])
      else isFalse (fun hh => h (by injection hh))
    | Except.error _, Except.ok _ => isFalse (fun hh => Except.noConfusion hh)
    | Except.ok _, Except.error _ => isFalse (fun hh => Except.noConfusion hh)

/-- The while loop at the end of `allocate_id_for_obj` (runtime/heap.rs):
`while next_id < heap.len() && heap[next_id].is_some() { next_id += 1 }`. -/
def advance_next_id (heap : List (Option α)) (n : Nat) : Nat :=
  if h : n < heap.length ∧ (heap.getD n none).isSome then
    advance_next_id heap (n + 1)
  else n
termination_by heap.length - n
decreasing_by simp_wf; omega

/-- `allocate_id_for_obj` (runtime/heap.rs): store the object at slot index
`next_id` (growing the slot vector with `None` padding when it is too short),
advance the next-free cursor past occupied slots, and return the external
identifier `index + 1`.  Returns (identifier, new slot vector, new cursor). -/
def allocate_id_for_obj (heap : List (Option α)) (next_id : Nat) (obj : α) :
    Nat × List (Option α) × Nat :=
  let id := next_id
  let heap1 :=
    if heap.length ≤ id then heap ++ List.replicate (id + 1 - heap.length) none
    else heap
  let heap2 := heap1.set id (some obj)
  let next := advance_next_id heap2 next_id
  (id + 1, heap2, next)

/-- The identifier slot table of `Heap` (runtime/heap.rs): the `heap` vector
of optional objects and the `next_id` cursor.  The ordinary half and the
special half of the source `Heap` each consist of exactly these two fields;
the payload type is a parameter. -/
structure IdHeap (α : Type) where
  heap : List (Option α)
  next_id : Nat

/-- Allocation on one half of the heap: every allocating operation of the
source (`allocate_object`, `allocate_array`, `clone_object`) stores its
freshly built object through `allocate_id_for_obj`. -/
def IdHeap.allocate (h : IdHeap α) (obj : α) : Nat × IdHeap α :=
  let r := allocate_id_for_obj h.heap h.next_id obj
  (r.1, ⟨r.2.1, r.2.2⟩)

/-- `Heap::deallocate` (runtime/heap.rs): `heap[(id - 1)].take(); next_id = id`. -/
def IdHeap.deallocate (h : IdHeap α) (id : Nat) : IdHeap α :=
  ⟨h.heap.set (id - 1) none, id⟩

/-- An external identifier is live when its slot holds an object. -/
def IdHeap.live (h : IdHeap α) (id : Nat) : Bool :=
  (h.heap.getD (id - 1) none).isSome

/-- `StringTableEntry` (runtime/heap/string_table.rs), as written by
`Heap::intern_string`. -/
structure StringTableEntry where
  string_id : Nat
  bytes_id : Nat
  hash : Nat
  has_multi_bytes : Bool
  deriving DecidableEq

/-- The two variants of `SpecialStringObject` (runtime/heap/string_table.rs)
allocated by `Heap::intern_string`: the interned byte array and the string
wrapper.  The per-object monitor is omitted; it carries no state relevant
here. -/
inductive SpecialStringObject where
  | bytes (bytes : List Nat)
  | str (bytes_id : Nat) (bytes : List Nat) (hash : Nat) (has_multi_bytes : Bool)
  deriving DecidableEq

/-- `StringTable` (runtime/heap/string_table.rs): a map from the interned
byte sequence to its table entry, modelled as an association list. -/
structure StringTable where
  map : List (List Nat × StringTableEntry)

/-- `HashMap::get` on the string table map: find the entry of the first
(and only) binding whose key equals the probe key. -/
def st_lookup (m : List (List Nat × StringTableEntry)) (k : List Nat) :
    Option StringTableEntry :=
  match m with
  | [] => none
  | kv :: rest => if kv.1 = k then some kv.2 else st_lookup rest k

/-- `Heap::MAX_OBJECT_ID` (runtime/heap.rs): the high bit of a 32-bit
identifier, marking the special heap. -/
def MAX_OBJECT_ID : Nat := 2 ^ 31

/-- `Heap::intern_string` (runtime/heap.rs): return the registered
identifier when the byte sequence is already in the string table; otherwise
allocate a bytes object and then a string wrapper in the special heap, tag
both identifiers with the special-heap high bit, register the pair under
the byte sequence, and return the string identifier. -/
def intern_string (string : List Nat) (has_multi_bytes : Bool)
    (special_heap : IdHeap SpecialStringObject) (string_table : StringTable) :
    Nat × IdHeap SpecialStringObject × StringTable :=
  match st_lookup string_table.map string with
  | some entry => (entry.string_id, special_heap, string_table)
  | none =>
    let rb := allocate_id_for_obj special_heap.heap special_heap.next_id
      (SpecialStringObject.bytes string)
    let bytes_id := Nat.lor rb.1 MAX_OBJECT_ID
    let rs := allocate_id_for_obj rb.2.1 rb.2.2
      (SpecialStringObject.str bytes_id string 0 has_multi_bytes)
    let string_id := Nat.lor rs.1 MAX_OBJECT_ID
    let entry : StringTableEntry := ⟨string_id, bytes_id, 0, false⟩
    (string_id, ⟨rs.2.1, rs.2.2⟩, ⟨(string, entry) :: string_table.map⟩)

/-- A runtime class (`runtime::Class`), restricted to the fields used by the
inheritance utilities: binary name, the interface access flag, the optional
super class and the implemented interfaces. -/
inductive RtClass where
  | mk (class_name : String) (is_interface : Bool)
      (super_class : Option RtClass) (interfaces : List RtClass)

/-- The `class_name` field of a runtime class. -/
def RtClass.class_name : RtClass → String
  | .mk n _ _ _ => n

/-- Whether the access flags contain `INTERFACE`. -/
def RtClass.is_interface : RtClass → Bool
  | .mk _ i _ _ => i

/-- The `super_class` field of a runtime class. -/
def RtClass.super_class : RtClass → Option RtClass
  | .mk _ _ s _ => s

/-- The `interfaces` field of a runtime class. -/
def RtClass.interfaces : RtClass → List RtClass
  | .mk _ _ _ l => l

/-- `is_same_or_sub_class_of` (runtime/inheritance.rs): walk the super-class
chain of `source` comparing class names against `target`. -/
def is_same_or_sub_class_of : RtClass → RtClass → Bool
  | .mk n _ sup _, target =>
    if n = target.class_name then true
    else
      match sup with
      | some s => is_same_or_sub_class_of s target
      | none => false

/-- `is_class_implements` (runtime/inheritance.rs): scan the interface list
of the class for a name match, then recurse through the super class. -/
def is_class_implements : RtClass → RtClass → Bool
  | .mk _ _ sup intfs, intf =>
    if intfs.any (fun class_intf => class_intf.class_name = intf.class_name) then true
    else
      match sup with
      | some s => is_class_implements s intf
      | none => false

/-- `ExceptionTableItem` (runtime/structs/attributes.rs) as consumed by
`Thread::handle_exception`.  The catch type is modelled as the resolved
handler class (`cp_class.get_or_load_class` is assumed to succeed). -/
structure ExceptionTableItem where
  start_pc : Nat
  end_pc : Nat
  handler_pc : Nat
  catch_type : Option RtClass

/-- The handler scan loop of `Thread::handle_exception`
(runtime/interpreter/frame.rs).  The accumulator starts at `-1`; an entry
whose range misses the program counter is skipped; a typed entry whose class
does not cover the exception is skipped; a typed match stores its handler
offset and the loop continues; an untyped (catch-all) entry stores its
handler offset and breaks. -/
def find_handler_loop (exp_class : RtClass) (pc : Nat) :
    List ExceptionTableItem → Int → Int
  | [], handler => handler
  | item :: rest, handler =>
    if ¬ (item.start_pc ≤ pc ∧ pc < item.end_pc) then
      find_handler_loop exp_class pc rest handler
    else
      match item.catch_type with
      | some handler_class =>
        if ¬ is_same_or_sub_class_of exp_class handler_class then
          find_handler_loop exp_class pc rest handler
        else
          find_handler_loop exp_class pc rest (Int.ofNat item.handler_pc)
      | none => Int.ofNat item.handler_pc

/-- The two variants of `runtime::Exception` (runtime/structs.rs): a
VM-raised exception carrying its class, and a user exception carrying the
object identifier of a guest throwable. -/
inductive VmExc where
  | vm_exception (exception_type : RtClass) (message : String)
  | user_exception (obj_ref : Nat)

/-- The match at the top of `Thread::handle_exception`: a VM-raised
exception contributes its class and the object reference 0 (null); a user
exception contributes the class of the referenced object (looked up through
the heap, modelled by `heap_class_of`) and its reference. -/
def exception_class_and_ref (heap_class_of : Nat → RtClass) :
    VmExc → RtClass × Nat
  | .vm_exception t _ => (t, 0)
  | .user_exception r => (heap_class_of r, r)

/-- The in-frame part of `Thread::handle_exception`
(runtime/interpreter/frame.rs): run the handler scan; on `-1` report no
handler (the caller pops the frame and rethrows), otherwise set the program
counter to the handler offset and replace the operand stack with the single
exception reference (`stack.clear(); stack.push(obj_ref)`).  The result is
the new (program counter, operand stack of references). -/
def handle_exception_in_frame (exp_class : RtClass) (obj_ref : Nat)
    (exception_table : List ExceptionTableItem) (pc : Nat) :
    Option (Nat × List Nat) :=
  let handler := find_handler_loop exp_class pc exception_table (-1)
  if handler = -1 then none
  else some (handler.toNat, [obj_ref])

/-- `CHECKCAST` in `InterpreterEnv::execute` (runtime/interpreter.rs): a
null operand always passes; otherwise the class of the referenced object is
tested with `is_same_or_sub_class_of` against the resolved constant class,
raising `ClassCastException` on failure.  The operand is left on the stack. -/
def CHECKCAST_exec (obj_ref : Nat) (obj_class target_class : RtClass) :
    Except String Unit :=
  if obj_ref ≠ 0 then
    if ¬ is_same_or_sub_class_of obj_class target_class then
      Except.error "java/lang/ClassCastException"
    else Except.ok ()
  else Except.ok ()

/-- `INSTANCEOF` in `InterpreterEnv::execute` (runtime/interpreter.rs): push
0 for null, otherwise 1 or 0 according to `is_same_or_sub_class_of` of the
object class against the resolved constant class. -/
def INSTANCEOF_exec (obj_ref : Nat) (obj_class target_class : RtClass) : Int :=
  if obj_ref = 0 then 0
  else if is_same_or_sub_class_of obj_class target_class then 1 else 0

/-- `ClinitStatus` (runtime/structs.rs).  The enum of the source has exactly
these two variants. -/
inductive ClinitStatus where
  | NotInit
  | Init
  deriving DecidableEq, Fintype

/-- The data of a class consulted by `initialize_class`
(runtime/inheritance.rs) when the class has no super class and no
interfaces, so that the recursive initialization calls are vacuous:
only whether executing its `<clinit>` method returns an exception. -/
structure SimpleInitClass where
  class_name : String
  clinit_throws : Bool

/-- `initialize_class` (runtime/inheritance.rs), specialised to a class with
no super class and no interfaces.  On entry, a status of `Init` returns
success immediately.  Otherwise the status is set to `Init` before `<clinit>`
runs; an exception from `<clinit>` propagates, and no failure is recorded in
the status. -/
def initialize_class (c : SimpleInitClass) (status : ClinitStatus) :
    Except Unit Unit × ClinitStatus :=
  if status = ClinitStatus.Init then (Except.ok (), status)
  else
    let status1 := ClinitStatus.Init
    if c.clinit_throws then (Except.error (), status1) else (Except.ok (), status1)

/-- `InterpreterEnv::get_i32_args_from` (runtime/interpreter.rs): read the
four code bytes after position `pc` as a big-endian signed 32-bit value,
`(b1 << 24) | (b2 << 16) | (b3 << 8) | b4` on i32 bit patterns. -/
def get_i32_args_from (code : List Nat) (pc : Nat) : Int :=
  let byte1 := code.getD (pc + 1) 0
  let byte2 := code.getD (pc + 2) 0
  let byte3 := code.getD (pc + 3) 0
  let byte4 := code.getD (pc + 4) 0
  toI32 (Int.ofNat
    (Nat.lor (Nat.lor (Nat.lor (Nat.shiftLeft byte1 24) (Nat.shiftLeft byte2 16))
      (Nat.shiftLeft byte3 8)) byte4))

/-- Rust `usize::wrapping_add_signed` on the 64-bit `usize` of the target,
used for `start_pc.wrapping_add_signed(offset)`. -/
def usize_wrapping_add_signed (a : Nat) (b : Int) : Nat :=
  (((a : Int) + b).emod (2 ^ 64)).toNat

/-- The pair loop of `InterpreterEnv::lookup_switch`: read (match, offset)
pairs of big-endian i32 values starting at argument base `pc`, returning the
offset of the first pair whose match equals the key. -/
def lookup_switch_pairs (code : List Nat) (key : Int) (pc : Nat) :
    Nat → Option Int
  | 0 => none
  | npairs + 1 =>
    let mat := get_i32_args_from code pc
    let offset := get_i32_args_from code (pc + 4)
    if key = mat then some offset
    else lookup_switch_pairs code key (pc + 8) npairs

/-- `InterpreterEnv::lookup_switch` (runtime/interpreter.rs): set the
program counter to `(pc & 4) + 3`, read the default offset and the pair
count, scan the pairs, and branch relative to the opcode position.  The
result is the new program counter. -/
def lookup_switch (code : List Nat) (pc : Nat) (key : Int) : Nat :=
  let start_pc := pc
  let pc1 := Nat.land pc 4 + 3
  let dflt := get_i32_args_from code pc1
  let npairs := get_i32_args_from code (pc1 + 4)
  match lookup_switch_pairs code key (pc1 + 8) npairs.toNat with
  | some offset => usize_wrapping_add_signed start_pc offset
  | none => usize_wrapping_add_signed start_pc dflt

/-- `InterpreterEnv::table_switch` (runtime/interpreter.rs): set the program
counter to `(pc & 4) + 3`, read the default offset and the low and high
bounds, and branch through the offset vector or the default, relative to the
opcode position.  The result is the new program counter. -/
def table_switch (code : List Nat) (pc : Nat) (index : Int) : Nat :=
  let start_pc := pc
  let pc1 := Nat.land pc 4 + 3
  let dflt := get_i32_args_from code pc1
  let low := get_i32_args_from code (pc1 + 4)
  let high := get_i32_args_from code (pc1 + 8)
  if index < low ∨ index > high then usize_wrapping_add_signed start_pc dflt
  else
    let pos := index - low
    let offset := get_i32_args_from code (pc1 + 12 + 4 * pos.toNat)
    usize_wrapping_add_signed start_pc offset

/-- The smallest multiple of 4 strictly greater than `pc`: where the claim
and the specification place the first operand byte of a switch
instruction. -/
def align4_past (pc : Nat) : Nat := pc / 4 * 4 + 4

/-- The byte offset at which the switch implementation actually reads its
first operand: `get_i32_args` reads from `pc + 1` after the program counter
was set to `(pc & 4) + 3`. -/
def switch_operand_base (pc : Nat) : Nat := Nat.land pc 4 + 3 + 1

/-- A concrete code array for exercising the switch instructions: a default
offset of 100 at bytes 4..7 and of 200 at bytes 12..15, zeros elsewhere. -/
def switch_test_code : List Nat :=
  [0, 0, 0, 0, 0, 0, 0, 100, 0, 0, 0, 0, 0, 0, 0, 200, 0, 0, 0, 0]

/-- `Variable` (runtime/interpreter/frame.rs): a single 32-bit slot.  The
source union is untagged; the tag here records which variant was last
written.  `void` is the padding variant `Variable { void: () }`. -/
inductive Variable where
  | int (v : Int)
  | float (bits : Nat)
  | reference (r : Nat)
  | return_address (a : Nat)
  | void
  deriving DecidableEq

/-- The locals vector and operand stack of a `Frame`
(runtime/interpreter/frame.rs); the head of each list is the top of the
Rust `Vec`. -/
structure Frame where
  locals : List Variable
  stack : List Variable

/-- `InterpreterEnv::store_n` (runtime/interpreter.rs): pop one slot; when
the locals vector is shorter than `n + 1`, resize it to `n + 1` padding with
`Variable { void: () }`; then write the slot at index `n`.  `none` models
the panic of `pop().unwrap()` on an empty operand stack. -/
def store_n (frame : Frame) (n : Nat) : Option Frame :=
  match frame.stack with
  | [] => none
  | v :: rest =>
    let locals :=
      if frame.locals.length < n + 1 then
        frame.locals ++ List.replicate (n + 1 - frame.locals.length) Variable.void
      else frame.locals
    some ⟨locals.set n v, rest⟩

/-- `InterpreterEnv::store_n_long` (runtime/interpreter.rs): pop the lower
slot `v2` and then the upper slot `v1`; when the locals vector is shorter
than `n + 2`, resize it to `n + 2` padding with `Variable { void: () }`;
write `v1` at index `n` and `v2` at index `n + 1`. -/
def store_n_long (frame : Frame) (n : Nat) : Option Frame :=
  match frame.stack with
  | v2 :: v1 :: rest =>
    let locals :=
      if frame.locals.length < n + 2 then
        frame.locals ++ List.replicate (n + 2 - frame.locals.length) Variable.void
      else frame.locals
    some ⟨(locals.set n v1).set (n + 1) v2, rest⟩
  | _ => none

/-!
Theorems.  Each claim of the specification is settled by exactly one theorem
below; shared helper lemmas precede them.
-/

/-- Claim C1: splitting any i64 with `Variable::put_long` and recombining
with `Variable::get_long` is claimed to be the identity.  The code refutes
this: `get_long` sign-extends the lower slot before the bitwise or, so the
value 4294967295 (lower half all ones, upper half zero) comes back as -1. -/
theorem c1_put_get_long_roundtrip_fails :
    get_long (put_long 4294967295).1 (put_long 4294967295).2 = -1
    ∧ (4294967295 : Int) ≠ -1 := by
  decide

/-- Claim C2: the long shifts are claimed to mask the count to its low 6
bits.  The code masks with `0x1F` (5 bits): shifting the long 1 left by 32
yields 1 (a shift by 0), where a 6-bit mask would give 2 ^ 32; similarly for
the arithmetic right shift.  The 32-bit shifts do use the 5-bit mask. -/
theorem c2_long_shift_mask_is_5_bits :
    LSHL_exec 1 32 = 1
    ∧ toI64 (1 * 2 ^ (32 % 64)) = 4294967296
    ∧ (1 : Int) ≠ 4294967296
    ∧ LSHR_exec (-8589934592) 32 = -8589934592
    ∧ Int.fdiv (-8589934592) (2 ^ (32 % 64)) = -2
    ∧ ISHL_exec 1 33 = 2 := by
  decide

/-- Claim C3: after `deallocate(id)` of a live ordinary identifier the next
allocation is claimed to return `id` again, and no allocation is claimed to
ever target a slot holding a live object.  The code refutes both: on the
heap that allocated identifiers 1 and 2, deallocating 1 sets the next-free
cursor to the external identifier 1 (the index of slot 2), so the next
allocation returns 2 instead of 1 and overwrites the live object of
identifier 2, while the freed slot of identifier 1 stays empty. -/
theorem c3_deallocate_reuse_fails :
    let h0 : IdHeap Nat := ⟨[], 0⟩
    let r1 := h0.allocate 100
    let r2 := r1.2.allocate 101
    let h3 := r2.2.deallocate 1
    let r4 := h3.allocate 102
    r1.1 = 1 ∧ r2.1 = 2
    ∧ h3.live 2 = true
    ∧ h3.live 1 = false
    ∧ r4.1 = 2
    ∧ r4.1 ≠ 1
    ∧ r4.2.heap.getD 1 none = some 102
    ∧ r4.2.heap.getD 0 none = none := by
  simp [IdHeap.allocate, IdHeap.deallocate, IdHeap.live, allocate_id_for_obj,
    advance_next_id]

/-- Claim C4: the handler table is claimed to be scanned in order with the
first matching entry selected, and a VM-raised exception is claimed to be
converted into a guest throwable before being pushed.  The code refutes
both: a typed match does not stop the scan, so with two typed entries both
covering the program counter and the exception class the second handler
offset (30) wins over the first (20); and the match on a VM-raised exception
yields the object reference 0, so a null reference is pushed instead of a
converted throwable.  The stack clearing and the program-counter update of
the claim do happen. -/
theorem c4_handler_scan_picks_last_typed_match :
    let object : RtClass := RtClass.mk "java/lang/Object" false none []
    let exc := RtClass.mk "E" false (some object) []
    let table : List ExceptionTableItem :=
      [⟨0, 10, 20, some exc⟩, ⟨0, 10, 30, some exc⟩]
    handle_exception_in_frame exc 7 table 5 = some (30, [7])
    ∧ (30 : Nat) ≠ 20
    ∧ (exception_class_and_ref (fun _ => exc) (VmExc.vm_exception exc "boom")).2
        = 0 := by
  decide

/-- Claim C5: a `<clinit>` that throws is claimed to leave the class in a
failed state, with every later initialization attempt failing fast.  The
code refutes this: `ClinitStatus` has only the states `NotInit` and `Init`,
the status is set to `Init` before `<clinit>` runs, and after a throwing
`<clinit>` the next call of `initialize_class` returns success. -/
theorem c5_failed_clinit_not_recorded :
    let c : SimpleInitClass := ⟨"Bad", true⟩
    let r1 := initialize_class c ClinitStatus.NotInit
    r1.1 = Except.error ()
    ∧ r1.2 = ClinitStatus.Init
    ∧ (initialize_class c r1.2).1 = Except.ok ()
    ∧ Fintype.card ClinitStatus = 2 := by
  exact ⟨rfl, rfl, rfl, rfl⟩

/-- Claim C6: the operands of a switch instruction are claimed to be read
from the smallest multiple of 4 greater than the opcode position.  The code
sets the program counter to `(pc & 4) + 3`, which agrees with the claimed
`(pc | 3)` only for `pc < 8`: for a switch opcode at position 8 the operands
are read from byte 4 instead of byte 12, so on a code array holding a
default offset 100 at bytes 4..7 and 200 at bytes 12..15 both switch
instructions branch to 108 where reading at the aligned position gives
208. -/
theorem c6_switch_padding_wrong_from_pc8 :
    switch_operand_base 8 = 4
    ∧ align4_past 8 = 12
    ∧ (4 : Nat) ≠ 12
    ∧ lookup_switch switch_test_code 8 0 = 108
    ∧ table_switch switch_test_code 8 (-1) = 108
    ∧ usize_wrapping_add_signed 8 (get_i32_args_from switch_test_code 11) = 208
    ∧ (108 : Nat) ≠ 208
    ∧ ((List.range 8).all fun pc => switch_operand_base pc == align4_past pc)
        = true := by
  decide

/-- Claim C8: `CHECKCAST` and `INSTANCEOF` are claimed to test
is-assignable-to covering class, interface and array targets.  The code only
walks the super-class chain (`is_same_or_sub_class_of`): for an object whose
class C implements the interface I — as the inheritance utility
`is_class_implements` of the same source file confirms — `INSTANCEOF` against
I pushes 0 and `CHECKCAST` raises `ClassCastException`.  The null behavior
of the claim does hold: null passes `CHECKCAST` and makes `INSTANCEOF` push
0. -/
theorem c8_checkcast_ignores_interfaces :
    let object : RtClass := RtClass.mk "java/lang/Object" false none []
    let i := RtClass.mk "I" true (some object) []
    let c := RtClass.mk "C" false (some object) [i]
    INSTANCEOF_exec 5 c i = 0
    ∧ is_class_implements c i = true
    ∧ CHECKCAST_exec 5 c i = Except.error "java/lang/ClassCastException"
    ∧ INSTANCEOF_exec 0 c i = 0
    ∧ CHECKCAST_exec 0 c i = Except.ok () := by
  decide

/-- Claim C7: for 32-bit operands, `IDIV` raises `ArithmeticException`
exactly when the divisor is zero; otherwise it pushes the two's-complement
wrapping quotient: `INT_MIN / -1` yields `INT_MIN` without raising, and in
every other case the pushed value is the plain truncating quotient. -/
theorem c7_idiv_spec (b a : Int)
    (hb : -(2 ^ 31) ≤ b ∧ b < 2 ^ 31) (ha : -(2 ^ 31) ≤ a ∧ a < 2 ^ 31) :
    (IDIV_exec b a = Except.error "java/lang/ArithmeticException" ↔ a = 0)
    ∧ IDIV_exec (-(2 ^ 31)) (-1) = Except.ok (-(2 ^ 31))
    ∧ (a ≠ 0 → ¬(b = -(2 ^ 31) ∧ a = -1) →
        IDIV_exec b a = Except.ok (Int.tdiv b a)) := by
  refine ⟨⟨fun h => ?_, fun h => by simp [IDIV_exec, h]⟩, by decide, ?_⟩
  · by_contra ha0
    simp [IDIV_exec, ha0] at h
  · intro ha0 hmin
    have habs : (Int.tdiv b a).natAbs = b.natAbs / a.natAbs := Int.natAbs_tdiv b a
    have hble : b.natAbs ≤ 2 ^ 31 := by omega
    have hrange : -(2 ^ 31) ≤ Int.tdiv b a ∧ Int.tdiv b a < 2 ^ 31 := by
      by_cases hb31 : b = -(2 ^ 31)
      · by_cases ha1 : a = 1
        · subst hb31; subst ha1
          rw [Int.tdiv_one]
          omega
        · have ham1 : a ≠ -1 := fun h => hmin ⟨hb31, h⟩
          have ha2 : 2 ≤ a.natAbs := by omega
          have hdd : b.natAbs / a.natAbs ≤ b.natAbs / 2 :=
            Nat.div_le_div_left ha2 (by omega)
          have hsmall : (Int.tdiv b a).natAbs ≤ b.natAbs / 2 := by
            rw [habs]; exact hdd
          have : b.natAbs / 2 = 2 ^ 30 := by
            subst hb31; omega
          omega
      · have hlt : b.natAbs < 2 ^ 31 := by omega
        have : (Int.tdiv b a).natAbs < 2 ^ 31 := by
          rw [habs]
          exact Nat.lt_of_le_of_lt (Nat.div_le_self _ _) hlt
        omega
    have hId : toI32 (Int.tdiv b a) = Int.tdiv b a := by
      unfold toI32
      have h1 : (Int.tdiv b a + 2 ^ 31).emod (2 ^ 32) = Int.tdiv b a + 2 ^ 31 :=
        Int.emod_eq_of_lt (by omega) (by omega)
      rw [h1]
      omega
    simp [IDIV_exec, ha0, wrapping_div_i32, hId]

/-- Witness for `c7_idiv_spec` at the concrete operands `b = 7`, `a = 2`. -/
theorem c7_idiv_spec_witness :
    (IDIV_exec 7 2 = Except.error "java/lang/ArithmeticException" ↔ (2 : Int) = 0)
    ∧ IDIV_exec (-(2 ^ 31)) (-1) = Except.ok (-(2 ^ 31))
    ∧ ((2 : Int) ≠ 0 → ¬((7 : Int) = -(2 ^ 31) ∧ (2 : Int) = -1) →
        IDIV_exec 7 2 = Except.ok (Int.tdiv 7 2)) :=
  c7_idiv_spec 7 2 (by decide) (by decide)

/-- Claim C9: `intern_string` is idempotent.  A second call with the same
byte sequence on the state produced by a first call returns the identifier
of the first call and leaves the special heap and the string table
unchanged; and when the byte sequence was not yet interned, the first call
registers an entry carrying exactly the returned identifier. -/
theorem c9_intern_string_idempotent (s : List Nat) (b1 b2 : Bool)
    (sh : IdHeap SpecialStringObject) (tbl : StringTable) :
    (intern_string s b2 (intern_string s b1 sh tbl).2.1
        (intern_string s b1 sh tbl).2.2).1
      = (intern_string s b1 sh tbl).1
    ∧ (intern_string s b2 (intern_string s b1 sh tbl).2.1
        (intern_string s b1 sh tbl).2.2).2.1
      = (intern_string s b1 sh tbl).2.1
    ∧ (intern_string s b2 (intern_string s b1 sh tbl).2.1
        (intern_string s b1 sh tbl).2.2).2.2
      = (intern_string s b1 sh tbl).2.2
    ∧ (st_lookup tbl.map s = none →
        ∃ e, st_lookup (intern_string s b1 sh tbl).2.2.map s = some e
          ∧ e.string_id = (intern_string s b1 sh tbl).1) := by
  rcases h : st_lookup tbl.map s with _ | entry
  · refine ⟨?_, ?_, ?_, ?_⟩ <;> simp [intern_string, h, st_lookup]
  · simp [intern_string, h]

/-- Witness for `c9_intern_string_idempotent` on the empty string table and
special heap with the byte sequence `[104]`. -/
theorem c9_intern_string_idempotent_witness :
    (intern_string [104] false (intern_string [104] true ⟨[], 0⟩ ⟨[]⟩).2.1
        (intern_string [104] true ⟨[], 0⟩ ⟨[]⟩).2.2).1
      = (intern_string [104] true ⟨[], 0⟩ ⟨[]⟩).1
    ∧ (∃ e, st_lookup (intern_string [104] true ⟨[], 0⟩ ⟨[]⟩).2.2.map [104]
          = some e
        ∧ e.string_id = (intern_string [104] true ⟨[], 0⟩ ⟨[]⟩).1) :=
  ⟨(c9_intern_string_idempotent [104] true false ⟨[], 0⟩ ⟨[]⟩).1,
   (c9_intern_string_idempotent [104] true false ⟨[], 0⟩ ⟨[]⟩).2.2.2 rfl⟩

/-- The length of a locals vector after the conditional resize of
`store_n` / `store_n_long`. -/
theorem padded_length (l : List Variable) (m : Nat) :
    (if l.length < m then l ++ List.replicate (m - l.length) Variable.void
     else l).length = max l.length m := by
  split <;> simp <;> omega

/-- The conditional resize preserves the slots already present. -/
theorem padded_getElem_lt (l : List Variable) (m i : Nat) (h : i < l.length) :
    (if l.length < m then l ++ List.replicate (m - l.length) Variable.void
     else l)[i]? = l[i]? := by
  split
  · simp [List.getElem?_append, h]
  · rfl

/-- The slots added by the conditional resize hold the `void` padding. -/
theorem padded_getElem_pad (l : List Variable) (m i : Nat)
    (h1 : l.length ≤ i) (h2 : i < m) :
    (if l.length < m then l ++ List.replicate (m - l.length) Variable.void
     else l)[i]? = some Variable.void := by
  rw [if_pos (by omega)]
  rw [List.getElem?_append]
  rw [if_neg (by omega)]
  rw [List.getElem?_replicate]
  rw [if_pos (by omega)]

/-- Claim C10: every store to a local slot is total in the local index.
For any locals vector, any operand stack holding the value(s) to store and
any index `n`, `store_n` and `store_n_long` succeed; the locals vector is
silently extended with `void` padding when the index is at or beyond its
length; the stored value(s) land at `n` (and `n + 1`), existing unrelated
slots are preserved, and no failure occurs for any out-of-range index. -/
theorem c10_store_total (locals : List Variable) (v v1 v2 : Variable)
    (rest : List Variable) (n : Nat) :
    (∃ fr, store_n ⟨locals, v :: rest⟩ n = some fr
      ∧ fr.stack = rest
      ∧ fr.locals.length = max locals.length (n + 1)
      ∧ fr.locals[n]? = some v
      ∧ (∀ i, i < locals.length → i ≠ n → fr.locals[i]? = locals[i]?)
      ∧ (∀ i, locals.length ≤ i → i < n → fr.locals[i]? = some Variable.void))
    ∧ (∃ fr, store_n_long ⟨locals, v2 :: v1 :: rest⟩ n = some fr
      ∧ fr.stack = rest
      ∧ fr.locals.length = max locals.length (n + 2)
      ∧ fr.locals[n]? = some v1
      ∧ fr.locals[n + 1]? = some v2
      ∧ (∀ i, i < locals.length → i ≠ n → i ≠ n + 1 → fr.locals[i]? = locals[i]?)
      ∧ (∀ i, locals.length ≤ i → i < n →
          fr.locals[i]? = some Variable.void)) := by
  constructor
  · refine ⟨_, rfl, rfl, ?_, ?_, ?_, ?_⟩
    · rw [List.length_set, padded_length]
    · exact List.getElem?_set_self (by rw [padded_length]; omega)
    · intro i hi hne
      rw [List.getElem?_set_ne (fun h => hne h.symm)]
      exact padded_getElem_lt locals (n + 1) i hi
    · intro i h1 h2
      rw [List.getElem?_set_ne (by omega)]
      exact padded_getElem_pad locals (n + 1) i h1 (by omega)
  · refine ⟨_, rfl, rfl, ?_, ?_, ?_, ?_, ?_⟩
    · rw [List.length_set, List.length_set, padded_length]
    · rw [List.getElem?_set_ne (by omega)]
      exact List.getElem?_set_self (by rw [padded_length]; omega)
    · exact List.getElem?_set_self
        (by rw [List.length_set, padded_length]; omega)
    · intro i hi hn hn1
      rw [List.getElem?_set_ne (fun h => hn1 h.symm)]
      rw [List.getElem?_set_ne (fun h => hn h.symm)]
      exact padded_getElem_lt locals (n + 2) i hi
    · intro i h1 h2
      rw [List.getElem?_set_ne (by omega)]
      rw [List.getElem?_set_ne (by omega)]
      exact padded_getElem_pad locals (n + 2) i h1 (by omega)

/-- Witness for `c10_store_total`: storing into index 3 of a one-slot
locals vector. -/
theorem c10_store_total_witness :
    (∃ fr, store_n ⟨[Variable.int 9], [Variable.int 5]⟩ 3 = some fr
      ∧ fr.stack = []
      ∧ fr.locals.length = max [Variable.int 9].length (3 + 1)
      ∧ fr.locals[3]? = some (Variable.int 5)
      ∧ (∀ i, i < [Variable.int 9].length → i ≠ 3 →
          fr.locals[i]? = [Variable.int 9][i]?)
      ∧ (∀ i, [Variable.int 9].length ≤ i → i < 3 →
          fr.locals[i]? = some Variable.void))
    ∧ (∃ fr, store_n_long
          ⟨[Variable.int 9], [Variable.int 7, Variable.int 6]⟩ 3 = some fr
      ∧ fr.stack = []
      ∧ fr.locals.length = max [Variable.int 9].length (3 + 2)
      ∧ fr.locals[3]? = some (Variable.int 6)
      ∧ fr.locals[3 + 1]? = some (Variable.int 7)
      ∧ (∀ i, i < [Variable.int 9].length → i ≠ 3 → i ≠ 3 + 1 →
          fr.locals[i]? = [Variable.int 9][i]?)
      ∧ (∀ i, [Variable.int 9].length ≤ i → i < 3 →
          fr.locals[i]? = some Variable.void)) :=
  c10_store_total [Variable.int 9] (Variable.int 5) (Variable.int 6)
    (Variable.int 7) [] 3
